import Mathlib

/-!
Verification of the core of `machine_cli.py` (an AWS SSM multi-instance CLI):
instance resolution (`resolve_instances`), the single-instance dispatch loop
(`send_ssm_command`), the parallel execution engine (`run_parallel`), and the
remote patch generator (`action_append_after_match`).

The Python source is shallowly embedded: the AWS SSM service is abstracted as
an oracle (`SsmEnv`) giving the outcome of the submission call and of every
status poll; thread-pool completion order is abstracted as an arbitrary
permutation `order` of the task indices; the awk program emitted by the patch
generator is embedded as a function on lists of lines, and its embedding in a
shell command line is checked against a small POSIX quoting model.
-/

/-! ### Data model: command results (dicts returned by `send_ssm_command`) -/

/-- The terminal statuses a `CommandResult` can carry: the four remote statuses
recognised by the poll loop, the dispatcher-level `TimedOut` (same constructor,
as in the source), and `FailedToSend` for submission failures. -/
inductive CmdStatus where
  | Success
  | Failed
  | TimedOut
  | Cancelled
  | FailedToSend
deriving DecidableEq, Repr

/-- The result dict built by `send_ssm_command`: keys `instance`, `status`,
`stdout`, `stderr`, and (only for `FailedToSend`) `error`. -/
structure CommandResult where
  instanceId : String
  status : CmdStatus
  stdout : String
  stderr : String
  error : Option String
deriving DecidableEq, Repr

/-- Outcome of one `get_command_invocation` call: a visible invocation with a
status string and captured output, the `InvocationDoesNotExist` exception, or
any other (swallowed) exception. -/
inductive PollResp where
  | invocation (status stdout stderr : String)
  | notVisible
  | pollError
deriving DecidableEq, Repr

/-- Oracle for one instance's dispatch: the outcome of `ssm.send_command`
(error text, or a command id) and the outcome of the `k`-th status poll. -/
structure SsmEnv where
  sendResult : Except String String
  poll : Nat → PollResp

/-- The remote statuses the poll loop recognises as terminal
(`if status in ("Success", "Failed", "TimedOut", "Cancelled")`). -/
def terminalStatuses : List String := ["Success", "Failed", "TimedOut", "Cancelled"]

/-- Mapping from a recognised terminal status string to `CmdStatus`; only ever
applied to members of `terminalStatuses`. -/
def statusOfRemote (st : String) : CmdStatus :=
  if st = "Success" then .Success
  else if st = "Failed" then .Failed
  else if st = "TimedOut" then .TimedOut
  else .Cancelled

/-- Whether a poll response is a recognised terminal invocation status. -/
def isTerminalResp : PollResp → Bool
  | .invocation st _ _ => decide (st ∈ terminalStatuses)
  | .notVisible => false
  | .pollError => false

/-- The poll loop of `send_ssm_command` (`for _ in range(int(timeout_seconds / 2))`).
Each iteration sleeps 2 time-units, then polls; a recognised terminal status
returns immediately with captured stdout/stderr; `InvocationDoesNotExist`
sleeps 1 extra unit and retries; any other error (or a non-terminal status)
just retries.  Returns the result dict together with the total time slept and
the number of polls performed. -/
def pollLoop (env : SsmEnv) (instance_id : String) : Nat → Nat → CommandResult × Nat × Nat
  | 0, _ =>
    ({ instanceId := instance_id, status := .TimedOut, stdout := "", stderr := "",
       error := none }, 0, 0)
  | fuel + 1, k =>
    match env.poll k with
    | .invocation st so se =>
      if st ∈ terminalStatuses then
        ({ instanceId := instance_id, status := statusOfRemote st, stdout := so,
           stderr := se, error := none }, 2, 1)
      else
        let r := pollLoop env instance_id fuel (k + 1)
        (r.1, 2 + r.2.1, 1 + r.2.2)
    | .notVisible =>
      let r := pollLoop env instance_id fuel (k + 1)
      (r.1, 3 + r.2.1, 1 + r.2.2)
    | .pollError =>
      let r := pollLoop env instance_id fuel (k + 1)
      (r.1, 2 + r.2.1, 1 + r.2.2)

/-- `send_ssm_command(session, instance_id, command, timeout_seconds)`: submit,
short-circuiting to `FailedToSend` when the send call errors, else poll up to
`int(timeout_seconds / 2)` times; exhausting the budget yields `TimedOut` with
empty output.  Returns (result, time slept, polls performed). -/
def send_ssm_command (env : SsmEnv) (instance_id : String) (timeout_seconds : Nat) :
    CommandResult × Nat × Nat :=
  match env.sendResult with
  | .error e =>
    ({ instanceId := instance_id, status := .FailedToSend, stdout := "", stderr := "",
       error := some e }, 0, 0)
  | .ok _ => pollLoop env instance_id (timeout_seconds / 2) 0

/-! ### Parallel execution engine -/

/-- `run_parallel(session, instance_ids, command, concurrency)`: one
`send_ssm_command` task per instance id (with the default 300-second timeout,
as in the source call site), results collected in completion order.  The
thread pool's nondeterministic completion order is abstracted as `order`, a
permutation of the task indices; `concurrency` only bounds how many tasks are
in flight and does not affect the collected results. -/
def run_parallel (env : String → String → SsmEnv) (instance_ids : List String)
    (command : String) (concurrency : Nat) (order : List Nat) : List CommandResult :=
  let _ := concurrency
  order.map fun k =>
    (send_ssm_command (env (instance_ids.getD k "") command) (instance_ids.getD k "") 300).1

/-! ### Instance resolver -/

/-- One character of `[0-9a-fA-F]`. -/
def isHexChar (c : Char) : Bool :=
  c.isDigit || (('a' ≤ c) && (c ≤ 'f')) || (('A' ≤ c) && (c ≤ 'F'))

/-- The fixed lexical pattern `^i-[0-9a-fA-F]+$` used by `resolve_instances` to
accept a token verbatim as an instance id. -/
def isInstanceId (s : String) : Bool :=
  match s.data with
  | 'i' :: '-' :: rest => (!rest.isEmpty) && rest.all isHexChar
  | _ => false

/-- The `out` list built by the main loop of `resolve_instances`: each token is
stripped; empty tokens are skipped; tokens matching the id pattern are appended
verbatim; any other token goes through the inventory lookup `inv` (the
`describe_instances` call filtered by Name tag and running state), whose
failure or empty answer contributes nothing (a logged warning). -/
def resolveRaw (inv : String → Except String (List String)) : List String → List String
  | [] => []
  | t :: ts =>
    let s := t.trim
    if s = "" then resolveRaw inv ts
    else if isInstanceId s then s :: resolveRaw inv ts
    else
      match inv s with
      | .ok ids => if ids.isEmpty then resolveRaw inv ts else ids ++ resolveRaw inv ts
      | .error _ => resolveRaw inv ts

/-- The final dedupe loop of `resolve_instances` (`seen` set plus `result`
list, keeping first occurrences in order). -/
def dedupKeepFirst : List String → List String → List String
  | [], _ => []
  | x :: xs, seen =>
    if x ∈ seen then dedupKeepFirst xs seen else x :: dedupKeepFirst xs (x :: seen)

/-- `resolve_instances(session, raw_list)`: resolve every token, then dedupe
preserving first-seen order. -/
def resolve_instances (inv : String → Except String (List String))
    (raw_list : List String) : List String :=
  dedupKeepFirst (resolveRaw inv raw_list) []

/-! ### Remote patch generator: the emitted awk program

`action_append_after_match` emits
`awk -v pattern=… -v new_line=… 'BEGIN{found=0} {print}
!found && $0 ~ pattern { match($0, /[^[:space:]]/);
lead = (RSTART>1?substr($0,1,RSTART-1):""); print lead new_line; found=1 }'`.
Lines are lists of characters; regex matching of `$0 ~ pattern` is abstracted
as a boolean predicate on the line. -/

/-- awk's `[:space:]` character class (POSIX C locale). -/
def awkSpaceChar (c : Char) : Bool :=
  c = ' ' || c = '\t' || c = '\n' || c = '\x0b' || c = '\x0c' || c = '\r'

/-- The `lead` computed by the awk action: `match($0, /[^[:space:]]/)` sets
`RSTART` to the 1-based position of the first non-space character (0 when the
line is all blanks), and `lead = (RSTART>1 ? substr($0,1,RSTART-1) : "")`. -/
def awkLead (l : List Char) : List Char :=
  if l.any (fun c => !(awkSpaceChar c)) then l.takeWhile awkSpaceChar else []

/-- One pass of the emitted awk program over the records of the file, with the
`found` flag threaded through: every record is printed; on a record matching
the pattern while `found` is still 0, `lead new_line` is printed after it and
`found` is set. -/
def awkProcess (p : List Char → Bool) (new_line : List Char) :
    Bool → List (List Char) → List (List Char)
  | _, [] => []
  | found, l :: ls =>
    if !found && p l then l :: (awkLead l ++ new_line) :: awkProcess p new_line true ls
    else l :: awkProcess p new_line found ls

/-- The insertion behaviour as the specification words it: the inserted line is
prefixed with "exactly the leading whitespace of the matched line" (its maximal
blank prefix), with no exception for all-blank lines.  Stated only to be
compared against `awkProcess`, which is the source's behaviour. -/
def claimedAppend (p : List Char → Bool) (new_line : List Char) :
    List (List Char) → List (List Char)
  | [] => []
  | l :: ls =>
    if p l then l :: (l.takeWhile awkSpaceChar ++ new_line) :: ls
    else l :: claimedAppend p new_line ls

/-- awk's record splitting with `RS="\n"`: newline-separated records, where a
final fragment not terminated by a newline still forms a record, and an empty
file has no records. -/
def awkRecords : List Char → List (List Char)
  | [] => []
  | c :: cs =>
    if c = '\n' then [] :: awkRecords cs
    else
      match awkRecords cs with
      | [] => [[c]]
      | r :: rs => (c :: r) :: rs

/-- awk's output of one record per `print`: the record followed by `ORS="\n"`. -/
def unlines (rs : List (List Char)) : List Char :=
  rs.foldr (fun r acc => r ++ '\n' :: acc) []

/-- Byte-level effect of running the emitted awk program over a whole file:
split into records, run the single pass, print each output record with a
trailing newline. -/
def awkFileOutput (p : List Char → Bool) (new_line : List Char) (file : List Char) :
    List Char :=
  unlines (awkProcess p new_line false (awkRecords file))

/-! ### Remote patch generator: temp-then-rename replacement

The generated command is `awk … FILE > /tmp/tm_cli_tmp.$$ && mv /tmp/tm_cli_tmp.$$ FILE`:
the redirection writes the temporary file, and `mv` replaces the target only
when the awk stage exits successfully. -/

/-- Remote filesystem state seen by the patch script: the target file's bytes
and the temporary file's bytes (if the temporary exists). -/
structure PatchState where
  target : List Char
  temp : Option (List Char)
deriving DecidableEq, Repr

/-- The `awk … FILE > /tmp/tm_cli_tmp.$$` stage: the temporary receives the
full single-pass output when awk succeeds, or whatever partial output was
written when it fails mid-pass (`partialOut`); the target is untouched. -/
def awkStage (p : List Char → Bool) (new_line : List Char) (ok : Bool)
    (partialOut : List Char) (s : PatchState) : PatchState :=
  { target := s.target,
    temp := some (if ok then awkFileOutput p new_line s.target else partialOut) }

/-- The `mv /tmp/tm_cli_tmp.$$ FILE` stage: the temporary replaces the target. -/
def mvStage (s : PatchState) : PatchState :=
  match s.temp with
  | some c => { target := c, temp := none }
  | none => s

/-- The whole generated command: the awk stage, then — because of `&&` — the
`mv` stage only when the awk stage succeeded. -/
def runPatchScript (p : List Char → Bool) (new_line : List Char) (ok : Bool)
    (partialOut : List Char) (s : PatchState) : PatchState :=
  let s1 := awkStage p new_line ok partialOut s
  if ok then mvStage s1 else s1

/-! ### Remote patch generator: shell embedding of pattern and new line

`action_append_after_match` escapes the two user-controlled fields with
`.replace("'", "'\"'\"'")` and splices them between single quotes.  A small
POSIX field-splitting model (single quotes, double quotes, blanks) checks that
the full command always parses into the same fixed sequence of words. -/

/-- `match_pattern.replace("'", "'\"'\"'")` (and the same for `new_line`). -/
def escChars : List Char → List Char
  | [] => []
  | c :: cs =>
    if c = '\x27' then '\x27' :: '\x22' :: '\x27' :: '\x22' :: '\x27' :: escChars cs
    else c :: escChars cs

/-- The body of the single-quoted awk program literal in the source. -/
def awkScriptBody : String :=
  "BEGIN\x7bfound=0\x7d \x7bprint\x7d !found && $0 ~ pattern \x7b match($0, /[^[:space:]]/); lead = (RSTART>1?substr($0,1,RSTART-1):\x22\x22); print lead new_line; found=1 \x7d"

/-- A field spliced into the command between single quotes, after escaping:
`"'" + esc + "'"`. -/
def sqEmbed (s : List Char) : List Char :=
  '\x27' :: (escChars s ++ ['\x27'])

/-- The full shell command string built by `action_append_after_match`, with
the (already `shlex.quote`d) file path `qfilepath`:
`"awk -v pattern='" + esc_pattern + "' -v new_line='" + esc_newline + "' '…' "
+ qfp + " > /tmp/tm_cli_tmp.$$ && mv /tmp/tm_cli_tmp.$$ " + qfp`
(character for character; the single quotes around each escaped field and
around the awk program literal are grouped with the field here). -/
def action_append_cmd (match_pattern new_line qfilepath : List Char) : List Char :=
  ("awk -v pattern=").data ++ sqEmbed match_pattern ++
    (" -v new_line=").data ++ sqEmbed new_line ++
    (" \x27" ++ awkScriptBody ++ "\x27 ").data ++ qfilepath ++
    (" > /tmp/tm_cli_tmp.$$ && mv /tmp/tm_cli_tmp.$$ ").data ++ qfilepath

/-- Quoting state of a POSIX shell scanner. -/
inductive QuoteMode where
  | unq
  | insq
  | indq
deriving DecidableEq, Repr

/-- State of the POSIX field-splitting scanner: current quoting mode, the
current (possibly still open) word, and the completed words. -/
structure SwState where
  mode : QuoteMode
  acc : List Char
  ws : List (List Char)
deriving DecidableEq, Repr

/-- One character of POSIX field splitting, restricted to the constructs the
generated command uses: single quotes, double quotes and blanks.  An unquoted
blank ends the current word; quoted characters are always literal. -/
def swStep (st : SwState) (c : Char) : SwState :=
  match st.mode with
  | .unq =>
    if c = '\x27' then { st with mode := .insq }
    else if c = '\x22' then { st with mode := .indq }
    else if c = ' ' then
      if st.acc = [] then st else { st with acc := [], ws := st.ws ++ [st.acc] }
    else { st with acc := st.acc ++ [c] }
  | .insq =>
    if c = '\x27' then { st with mode := .unq } else { st with acc := st.acc ++ [c] }
  | .indq =>
    if c = '\x22' then { st with mode := .unq } else { st with acc := st.acc ++ [c] }

/-- Run the scanner over a string of characters. -/
def swRun (st : SwState) (cs : List Char) : SwState :=
  cs.foldl swStep st

/-- Split a command line into words; `none` when a quote is left unterminated. -/
def shellWords (cs : List Char) : Option (List (List Char)) :=
  match swRun ⟨.unq, [], []⟩ cs with
  | ⟨.unq, acc, ws⟩ => some (if acc = [] then ws else ws ++ [acc])
  | _ => none

/-! ## Helper lemmas: dispatcher -/

theorem pollLoop_instanceId (env : SsmEnv) (iid : String) :
    ∀ fuel k, ((pollLoop env iid fuel k).1).instanceId = iid := by
  intro fuel
  induction fuel with
  | zero => intro k; rfl
  | succ n ih =>
    intro k
    cases hp : env.poll k with
    | invocation st so se =>
      by_cases hst : st ∈ terminalStatuses
      · simp [pollLoop, hp, hst]
      · simp [pollLoop, hp, hst, ih (k + 1)]
    | notVisible => simp [pollLoop, hp, ih (k + 1)]
    | pollError => simp [pollLoop, hp, ih (k + 1)]

theorem send_ssm_instanceId (env : SsmEnv) (iid : String) (t : Nat) :
    ((send_ssm_command env iid t).1).instanceId = iid := by
  unfold send_ssm_command
  cases hs : env.sendResult with
  | error e => rfl
  | ok cid => exact pollLoop_instanceId env iid (t / 2) 0

theorem statusOfRemote_eq_cancelled {st : String} (hmem : st ∈ terminalStatuses)
    (hst : statusOfRemote st = .Cancelled) : st = "Cancelled" := by
  simp only [terminalStatuses, List.mem_cons, List.not_mem_nil, or_false] at hmem
  rcases hmem with h | h | h | h <;> subst h
  · exact absurd hst (by decide)
  · exact absurd hst (by decide)
  · exact absurd hst (by decide)
  · rfl

theorem pollLoop_cancelled (env : SsmEnv) (iid : String) :
    ∀ fuel k, ((pollLoop env iid fuel k).1).status = .Cancelled →
      ∃ j so se, env.poll j = .invocation "Cancelled" so se := by
  intro fuel
  induction fuel with
  | zero => intro k h; simp [pollLoop] at h
  | succ n ih =>
    intro k h
    cases hp : env.poll k with
    | invocation st so se =>
      by_cases hst : st ∈ terminalStatuses
      · simp [pollLoop, hp, hst] at h
        exact ⟨k, so, se, by rw [hp, statusOfRemote_eq_cancelled hst h]⟩
      · simp [pollLoop, hp, hst] at h
        exact ih (k + 1) h
    | notVisible =>
      simp [pollLoop, hp] at h
      exact ih (k + 1) h
    | pollError =>
      simp [pollLoop, hp] at h
      exact ih (k + 1) h

theorem send_ssm_cancelled (env : SsmEnv) (iid : String) (t : Nat)
    (h : ((send_ssm_command env iid t).1).status = .Cancelled) :
    ∃ j so se, env.poll j = .invocation "Cancelled" so se := by
  unfold send_ssm_command at h
  cases hs : env.sendResult with
  | error e => rw [hs] at h; simp at h
  | ok cid => rw [hs] at h; exact pollLoop_cancelled env iid (t / 2) 0 h

theorem pollLoop_no_terminal (env : SsmEnv) (iid : String)
    (hn : ∀ j, isTerminalResp (env.poll j) = false) :
    ∀ fuel k,
      (pollLoop env iid fuel k).1 =
        { instanceId := iid, status := .TimedOut, stdout := "", stderr := "",
          error := none } ∧
      (pollLoop env iid fuel k).2.2 = fuel ∧
      2 * fuel ≤ (pollLoop env iid fuel k).2.1 ∧
      (pollLoop env iid fuel k).2.1 ≤ 3 * fuel := by
  intro fuel
  induction fuel with
  | zero => intro k; refine ⟨rfl, rfl, by simp [pollLoop], by simp [pollLoop]⟩
  | succ n ih =>
    intro k
    obtain ⟨h1, h2, h3, h4⟩ := ih (k + 1)
    have step : pollLoop env iid (n + 1) k =
        ((pollLoop env iid n (k + 1)).1,
          (if env.poll k = .notVisible then 3 else 2) + (pollLoop env iid n (k + 1)).2.1,
          1 + (pollLoop env iid n (k + 1)).2.2) := by
      cases hp : env.poll k with
      | invocation st so se =>
        have hst : ¬ st ∈ terminalStatuses := by
          simpa [isTerminalResp, hp] using hn k
        simp [pollLoop, hp, hst]
      | notVisible => simp [pollLoop, hp]
      | pollError => simp [pollLoop, hp]
    rw [step]
    refine ⟨h1, by simpa using by omega, ?_, ?_⟩
    · by_cases hv : env.poll k = .notVisible <;> simp only [hv, if_pos, if_neg, reduceIte] <;>
        omega
    · by_cases hv : env.poll k = .notVisible <;> simp only [hv, if_pos, if_neg, reduceIte] <;>
        omega

/-! ## Claims about the dispatcher -/

/-- C7: when the submission call itself errors, `send_ssm_command` returns a
terminal `FailedToSend` result carrying the send error's text, with empty
stdout and stderr, and performs no polling at all (zero polls, zero time). -/
theorem send_ssm_failed_to_send (env : SsmEnv) (iid : String) (t : Nat) (e : String)
    (h : env.sendResult = .error e) :
    send_ssm_command env iid t =
      ({ instanceId := iid, status := .FailedToSend, stdout := "", stderr := "",
         error := some e }, 0, 0) := by
  unfold send_ssm_command
  rw [h]

/-- Witness for C7 at a concrete failing submission. -/
theorem send_ssm_failed_to_send_witness :
    send_ssm_command
        { sendResult := Except.error "AccessDenied", poll := fun _ => PollResp.pollError }
        "i-0abc" 300 =
      ({ instanceId := "i-0abc", status := .FailedToSend, stdout := "", stderr := "",
         error := some "AccessDenied" }, 0, 0) :=
  send_ssm_failed_to_send
    { sendResult := Except.error "AccessDenied", poll := fun _ => PollResp.pollError }
    "i-0abc" 300 "AccessDenied" rfl

/-- C10: for `timeout_seconds < 2` the poll budget `int(timeout_seconds / 2)`
is zero, so after a successful submission the dispatcher performs no poll and
unconditionally returns `TimedOut` with empty stdout and stderr — whatever the
poll oracle would have answered. -/
theorem send_ssm_zero_poll_budget (env : SsmEnv) (iid : String) (t : Nat) (cid : String)
    (ht : t < 2) (hs : env.sendResult = .ok cid) :
    send_ssm_command env iid t =
      ({ instanceId := iid, status := .TimedOut, stdout := "", stderr := "",
         error := none }, 0, 0) := by
  unfold send_ssm_command
  rw [hs, Nat.div_eq_of_lt ht]
  rfl

/-- Witness for C10: timeout 1, with a remote command that would report
`Success` on the very first poll — still `TimedOut` with no poll taken. -/
theorem send_ssm_zero_poll_budget_witness :
    send_ssm_command
        { sendResult := Except.ok "cid",
          poll := fun _ => PollResp.invocation "Success" "done" "" } "i-0abc" 1 =
      ({ instanceId := "i-0abc", status := .TimedOut, stdout := "", stderr := "",
         error := none }, 0, 0) :=
  send_ssm_zero_poll_budget
    { sendResult := Except.ok "cid",
      poll := fun _ => PollResp.invocation "Success" "done" "" }
    "i-0abc" 1 "cid" (by decide) rfl

/-- C4 counterexample: the claim bounds the total blocking time by
approximately `timeout` plus one poll interval "regardless of how many polls
observe a not-yet-visible invocation".  With `timeout = 8` and every poll
raising `InvocationDoesNotExist`, each of the 4 iterations sleeps 2 + 1
time-units, so the dispatch blocks 12 time-units, exceeding `8 + 2`. -/
theorem send_ssm_timeout_bound_counterexample :
    (send_ssm_command
        { sendResult := Except.ok "cid", poll := fun _ => PollResp.notVisible }
        "i-0abc" 8).2.1 = 12 ∧
    ¬ ((send_ssm_command
        { sendResult := Except.ok "cid", poll := fun _ => PollResp.notVisible }
        "i-0abc" 8).2.1 ≤ 8 + 2) := by
  constructor
  · rfl
  · decide

/-- C4, amended: a dispatch whose remote status never becomes terminal polls at
the fixed 2-time-unit interval for `timeout / 2` attempts and then returns
`TimedOut` with empty stdout and stderr.  Its total blocking time lies between
`2 * (timeout / 2)` and `3 * (timeout / 2)` — i.e. it is within `timeout` only
when no poll observes a not-yet-visible invocation (whose 1-unit backoff adds
up to half the budget again, to 1.5 × `timeout` in the worst case). -/
theorem send_ssm_timeout_budget (env : SsmEnv) (iid : String) (t : Nat) (cid : String)
    (hs : env.sendResult = .ok cid)
    (hn : ∀ j, isTerminalResp (env.poll j) = false) :
    (send_ssm_command env iid t).1 =
      { instanceId := iid, status := .TimedOut, stdout := "", stderr := "",
        error := none } ∧
    (send_ssm_command env iid t).2.2 = t / 2 ∧
    2 * (t / 2) ≤ (send_ssm_command env iid t).2.1 ∧
    (send_ssm_command env iid t).2.1 ≤ 3 * (t / 2) := by
  have h : send_ssm_command env iid t = pollLoop env iid (t / 2) 0 := by
    unfold send_ssm_command
    rw [hs]
  rw [h]
  exact pollLoop_no_terminal env iid hn (t / 2) 0

/-- Witness for C4's amended bound: timeout 8 with every poll a swallowed
transient error — `TimedOut` after 4 polls, blocking between 8 and 12 units. -/
theorem send_ssm_timeout_budget_witness :
    (send_ssm_command
        { sendResult := Except.ok "cid", poll := fun _ => PollResp.pollError }
        "i-0abc" 8).1 =
      { instanceId := "i-0abc", status := .TimedOut, stdout := "", stderr := "",
        error := none } ∧
    (send_ssm_command
        { sendResult := Except.ok "cid", poll := fun _ => PollResp.pollError }
        "i-0abc" 8).2.2 = 8 / 2 ∧
    2 * (8 / 2) ≤ (send_ssm_command
        { sendResult := Except.ok "cid", poll := fun _ => PollResp.pollError }
        "i-0abc" 8).2.1 ∧
    (send_ssm_command
        { sendResult := Except.ok "cid", poll := fun _ => PollResp.pollError }
        "i-0abc" 8).2.1 ≤ 3 * (8 / 2) :=
  send_ssm_timeout_budget
    { sendResult := Except.ok "cid", poll := fun _ => PollResp.pollError }
    "i-0abc" 8 "cid" rfl (fun _ => rfl)

/-! ## Claims about the patch script's temp-then-rename structure -/

/-- C9: the generated script writes the full single-pass output to a temporary
file and only then — thanks to `&&` — moves it over the original: the target
is replaced exactly when the awk pass succeeds, and a failure mid-pass leaves
the original file unmodified (whatever partial output reached the temporary). -/
theorem run_patch_script_atomic (p : List Char → Bool) (new_line : List Char)
    (ok : Bool) (partialOut : List Char) (s : PatchState) :
    (runPatchScript p new_line ok partialOut s).target =
      (if ok then awkFileOutput p new_line s.target else s.target) := by
  cases ok <;> simp [runPatchScript, awkStage, mvStage]

/-! ## Claims about the instance resolver -/

theorem mem_dedupKeepFirst (l : List String) :
    ∀ (seen : List String) (x : String),
      x ∈ dedupKeepFirst l seen ↔ x ∈ l ∧ x ∉ seen := by
  induction l with
  | nil => intro seen x; simp [dedupKeepFirst]
  | cons y ys ih =>
    intro seen x
    by_cases hy : y ∈ seen
    · rw [dedupKeepFirst, if_pos hy, ih]
      simp only [List.mem_cons]
      constructor
      · exact fun ⟨h1, h2⟩ => ⟨Or.inr h1, h2⟩
      · rintro ⟨h1 | h1, h2⟩
        · exact absurd (h1 ▸ hy) h2
        · exact ⟨h1, h2⟩
    · rw [dedupKeepFirst, if_neg hy]
      simp only [List.mem_cons, ih]
      constructor
      · rintro (rfl | ⟨h1, h2⟩)
        · exact ⟨Or.inl rfl, hy⟩
        · exact ⟨Or.inr h1, fun hs => h2 (Or.inr hs)⟩
      · rintro ⟨rfl | h1, h2⟩
        · exact Or.inl rfl
        · by_cases hxy : x = y
          · exact Or.inl hxy
          · exact Or.inr ⟨h1, by simp [List.mem_cons, hxy, h2]⟩

theorem dedupKeepFirst_pairwise (l : List String) :
    ∀ seen : List String,
      (dedupKeepFirst l seen).Pairwise (fun a b => l.indexOf a < l.indexOf b) := by
  induction l with
  | nil => intro seen; simp [dedupKeepFirst]
  | cons y ys ih =>
    intro seen
    by_cases hy : y ∈ seen
    · rw [dedupKeepFirst, if_pos hy]
      refine (ih seen).imp_of_mem ?_
      intro a b ha hb hab
      have ha' := ((mem_dedupKeepFirst ys seen a).mp ha).2
      have hb' := ((mem_dedupKeepFirst ys seen b).mp hb).2
      have hay : y ≠ a := fun h => ha' (h ▸ hy)
      have hby : y ≠ b := fun h => hb' (h ▸ hy)
      rw [List.indexOf_cons_ne ys hay, List.indexOf_cons_ne ys hby]
      exact Nat.succ_lt_succ hab
    · rw [dedupKeepFirst, if_neg hy]
      rw [List.pairwise_cons]
      constructor
      · intro b hb
        have hbm := (mem_dedupKeepFirst ys (y :: seen) b).mp hb
        have hby : y ≠ b := fun h => hbm.2 (h ▸ List.mem_cons_self y seen)
        rw [List.indexOf_cons_self, List.indexOf_cons_ne ys hby]
        exact Nat.succ_pos _
      · refine (ih (y :: seen)).imp_of_mem ?_
        intro a b ha hb hab
        have ha' := ((mem_dedupKeepFirst ys (y :: seen) a).mp ha).2
        have hb' := ((mem_dedupKeepFirst ys (y :: seen) b).mp hb).2
        have hay : y ≠ a := fun h => ha' (h ▸ List.mem_cons_self y seen)
        have hby : y ≠ b := fun h => hb' (h ▸ List.mem_cons_self y seen)
        rw [List.indexOf_cons_ne ys hay, List.indexOf_cons_ne ys hby]
        exact Nat.succ_lt_succ hab

/-- C5: the resolver's output has no duplicate identifiers and keeps
first-seen order: its members are exactly the identifiers produced by the
resolution loop (`resolveRaw`), it is duplicate-free, and its elements are
strictly ordered by the position of their first occurrence in the resolution
loop's output — i.e. each identifier sits at the position its first producing
token gave it, however many tokens produced it. -/
theorem resolve_instances_dedup (inv : String → Except String (List String))
    (tokens : List String) :
    (∀ x, x ∈ resolve_instances inv tokens ↔ x ∈ resolveRaw inv tokens) ∧
    (resolve_instances inv tokens).Nodup ∧
    (resolve_instances inv tokens).Pairwise
      (fun a b => (resolveRaw inv tokens).indexOf a < (resolveRaw inv tokens).indexOf b) := by
  refine ⟨?_, ?_, dedupKeepFirst_pairwise (resolveRaw inv tokens) []⟩
  · intro x
    rw [resolve_instances, mem_dedupKeepFirst]
    simp
  · refine (dedupKeepFirst_pairwise (resolveRaw inv tokens) []).imp ?_
    intro a b hab
    intro h
    exact absurd (h ▸ hab) (lt_irrefl _)

/-! ## Claims about the emitted awk program -/

theorem awkProcess_found (p : List Char → Bool) (nl : List Char) :
    ∀ ls, awkProcess p nl true ls = ls := by
  intro ls
  induction ls with
  | nil => rfl
  | cons l ls ih => simp [awkProcess, ih]

theorem awkProcess_no_match (p : List Char → Bool) (nl : List Char) :
    ∀ (b : Bool) (ls : List (List Char)), (∀ l ∈ ls, p l = false) →
      awkProcess p nl b ls = ls := by
  intro b ls
  induction ls generalizing b with
  | nil => intro _; rfl
  | cons l ls ih =>
    intro h
    have hl := h l (List.mem_cons_self l ls)
    simp [awkProcess, hl, ih b fun x hx => h x (List.mem_cons_of_mem l hx)]

/-- C2 counterexample: the claim prescribes "exactly the leading whitespace of
the matched line" as the inserted line's prefix.  On the one-line file
`["  "]` (two blanks) with a pattern matching any line containing a blank, the
matched line's leading whitespace is the whole line, but the generated awk
program computes `RSTART = 0` (no non-blank character), takes the `: ""`
branch, and emits the inserted line with no prefix at all. -/
theorem action_append_claim_counterexample :
    awkProcess (fun l => l.contains ' ') ['x'] false [[' ', ' ']] =
      [[' ', ' '], ['x']] ∧
    claimedAppend (fun l => l.contains ' ') ['x'] [[' ', ' ']] =
      [[' ', ' '], [' ', ' ', 'x']] ∧
    awkProcess (fun l => l.contains ' ') ['x'] false [[' ', ' ']] ≠
      claimedAppend (fun l => l.contains ' ') ['x'] [[' ', ' ']] := by
  refine ⟨rfl, rfl, ?_⟩
  decide

/-- C2, amended: the emitted awk program echoes every original line unchanged
and, only after the first line matching the pattern, additionally emits the new
line prefixed with the matched line's blank prefix up to its first non-blank
character — which is exactly the matched line's leading whitespace whenever
the line contains a non-blank character, and is empty both for an unindented
match and for an all-blank matched line (`awkLead`).  All later lines,
matching or not, are echoed with no insertion: insertion happens at most once
per file. -/
theorem action_append_first_match (p : List Char → Bool) (nl : List Char)
    (pre : List (List Char)) (m : List Char) (suf : List (List Char))
    (hpre : ∀ l ∈ pre, p l = false) (hm : p m = true) :
    awkProcess p nl false (pre ++ m :: suf) =
      pre ++ m :: (awkLead m ++ nl) :: suf := by
  induction pre with
  | nil => simp [awkProcess, hm, awkProcess_found]
  | cons l ls ih =>
    have hl := hpre l (List.mem_cons_self l ls)
    simp only [List.cons_append, awkProcess, hl, Bool.not_false, Bool.true_and,
      if_neg Bool.false_ne_true]
    exact congrArg (List.cons l) (ih fun x hx => hpre x (List.mem_cons_of_mem l hx))

/-- Witness for C2's amended statement: a non-matching first line, an indented
match `"  x"`, and a later line that also matches but receives no insertion. -/
theorem action_append_first_match_witness :
    awkProcess (fun l => l.contains 'x') ['p'] false
        [['a'], [' ', ' ', 'x'], [' ', 'x']] =
      [['a'], [' ', ' ', 'x'], [' ', ' ', 'p'], [' ', 'x']] :=
  action_append_first_match (fun l => l.contains 'x') ['p']
    [['a']] [' ', ' ', 'x'] [[' ', 'x']] (by decide) (by decide)

/-! ## Claims about the byte-level file rewrite -/

theorem awkRecords_ne_nil (cs : List Char) (h : cs ≠ []) : awkRecords cs ≠ [] := by
  match cs with
  | [] => exact absurd rfl h
  | c :: cs' =>
    rw [awkRecords]
    by_cases hc : c = '\n'
    · simp [hc]
    · rw [if_neg hc]
      cases awkRecords cs' <;> simp

theorem unlines_cons (r : List Char) (rs : List (List Char)) :
    unlines (r :: rs) = r ++ '\n' :: unlines rs := rfl

theorem unlines_awkRecords (cs : List Char) (h : cs.getLast? = some '\n') :
    unlines (awkRecords cs) = cs := by
  induction cs with
  | nil => simp at h
  | cons c rest ih =>
    cases rest with
    | nil =>
      have hc : c = '\n' := by simpa using h
      subst hc
      rfl
    | cons r rs =>
      have h' : (r :: rs).getLast? = some '\n' := by
        rwa [List.getLast?_cons_cons] at h
      by_cases hc : c = '\n'
      · subst hc
        show unlines ([] :: awkRecords (r :: rs)) = '\n' :: r :: rs
        rw [unlines_cons, List.nil_append, ih h']
      · obtain ⟨r0, rs0, hr⟩ : ∃ a as, awkRecords (r :: rs) = a :: as := by
          cases hrr : awkRecords (r :: rs) with
          | nil => exact absurd hrr (awkRecords_ne_nil (r :: rs) (by simp))
          | cons a as => exact ⟨a, as, rfl⟩
        rw [awkRecords, if_neg hc, hr]
        have hu : unlines (r0 :: rs0) = r :: rs := hr ▸ ih h'
        rw [unlines_cons] at hu
        rw [unlines_cons, List.cons_append, hu]

/-- C8 counterexample: the claim promises a byte-for-byte identical rewrite
whenever no line matches.  On the one-byte file `"a"` — which has no trailing
newline — awk's `print` still appends its output record separator, so the
rewritten file is `"a\n"`, not `"a"`. -/
theorem awk_rewrite_counterexample :
    ((awkRecords ['a']).all fun r => !(r.contains 'z')) = true ∧
    awkFileOutput (fun r => r.contains 'z') ['x'] ['a'] = ['a', '\n'] ∧
    awkFileOutput (fun r => r.contains 'z') ['x'] ['a'] ≠ ['a'] := by
  refine ⟨rfl, rfl, ?_⟩
  decide

/-- C8, amended: when no record of the file matches the pattern, the generated
script rewrites the file byte-for-byte identical to the original — provided
the original is empty or ends with a newline; a final line with no trailing
newline gains one (awk's `print` appends the output record separator).  The
rewrite still goes through the temp-then-rename replacement modelled by
`runPatchScript`. -/
theorem awk_rewrite_no_match (p : List Char → Bool) (nl : List Char) (cs : List Char)
    (hnm : ∀ r ∈ awkRecords cs, p r = false)
    (hend : cs = [] ∨ cs.getLast? = some '\n') :
    awkFileOutput p nl cs = cs := by
  rw [awkFileOutput, awkProcess_no_match p nl false (awkRecords cs) hnm]
  rcases hend with rfl | h
  · rfl
  · exact unlines_awkRecords cs h

/-- Witness for C8's amended statement on the two-line file `"ab\ncd\n"` with a
pattern matching no line. -/
theorem awk_rewrite_no_match_witness :
    awkFileOutput (fun r => r.contains 'z') ['x'] ("ab\ncd\n").data = ("ab\ncd\n").data :=
  awk_rewrite_no_match (fun r => r.contains 'z') ['x'] ("ab\ncd\n").data
    (by decide) (Or.inr (by decide))

/-! ## Claims about the parallel execution engine -/

theorem map_getD_range (l : List String) :
    (List.range l.length).map (fun k => l.getD k "") = l := by
  induction l with
  | nil => rfl
  | cons x xs ih =>
    rw [List.length_cons, List.range_succ_eq_map, List.map_cons, List.map_map,
      List.getD_cons_zero]
    have hstep : (List.range xs.length).map ((fun k => (x :: xs).getD k "") ∘ Nat.succ)
        = (List.range xs.length).map (fun k => xs.getD k "") :=
      List.map_congr_left fun k _ => by simp [Function.comp, List.getD_cons_succ]
    rw [hstep, ih]

theorem run_parallel_map_instanceId (env : String → String → SsmEnv)
    (instance_ids : List String) (command : String) (concurrency : Nat)
    (order : List Nat) :
    (run_parallel env instance_ids command concurrency order).map
        (fun r => r.instanceId) =
      order.map fun k => instance_ids.getD k "" := by
  rw [run_parallel, List.map_map]
  refine List.map_congr_left fun k _ => ?_
  simp [Function.comp, send_ssm_instanceId]

/-- C1: for every oracle, command, concurrency and completion order, the
engine returns exactly one `CommandResult` per input identifier — the result
list has the input's length and its `instance` fields are a permutation of the
input identifiers; when the input identifiers are distinct (as a resolved list
is), the result's instance fields are pairwise distinct as well.  This holds
whatever each dispatch's outcome is, including send failures and timeouts. -/
theorem run_parallel_cardinality (env : String → String → SsmEnv)
    (instance_ids : List String) (command : String) (concurrency : Nat)
    (order : List Nat)
    (horder : order.Perm (List.range instance_ids.length)) :
    (run_parallel env instance_ids command concurrency order).length =
      instance_ids.length ∧
    ((run_parallel env instance_ids command concurrency order).map
        (fun r => r.instanceId)).Perm instance_ids ∧
    (instance_ids.Nodup →
      ((run_parallel env instance_ids command concurrency order).map
          (fun r => r.instanceId)).Nodup) := by
  have hperm : ((run_parallel env instance_ids command concurrency order).map
      (fun r => r.instanceId)).Perm instance_ids := by
    rw [run_parallel_map_instanceId]
    have := horder.map fun k => instance_ids.getD k ""
    rwa [map_getD_range] at this
  refine ⟨?_, hperm, fun hnd => (hperm.nodup_iff).mpr hnd⟩
  have h1 : (run_parallel env instance_ids command concurrency order).length =
      order.length := by simp [run_parallel]
  rw [h1, horder.length_eq, List.length_range]

/-- Witness for C1: three instances dispatched with completion order ⟨2,0,1⟩. -/
theorem run_parallel_cardinality_witness :
    (run_parallel
        (fun _ _ => { sendResult := Except.ok "c",
                      poll := fun _ => PollResp.invocation "Success" "ok" "" })
        ["i-0a", "i-0b", "i-0c"] "uptime" 8 [2, 0, 1]).length =
      (["i-0a", "i-0b", "i-0c"] : List String).length ∧
    ((run_parallel
        (fun _ _ => { sendResult := Except.ok "c",
                      poll := fun _ => PollResp.invocation "Success" "ok" "" })
        ["i-0a", "i-0b", "i-0c"] "uptime" 8 [2, 0, 1]).map
        (fun r => r.instanceId)).Perm ["i-0a", "i-0b", "i-0c"] ∧
    ((["i-0a", "i-0b", "i-0c"] : List String).Nodup →
      ((run_parallel
          (fun _ _ => { sendResult := Except.ok "c",
                        poll := fun _ => PollResp.invocation "Success" "ok" "" })
          ["i-0a", "i-0b", "i-0c"] "uptime" 8 [2, 0, 1]).map
          (fun r => r.instanceId)).Nodup) :=
  run_parallel_cardinality
    (fun _ _ => { sendResult := Except.ok "c",
                  poll := fun _ => PollResp.invocation "Success" "ok" "" })
    ["i-0a", "i-0b", "i-0c"] "uptime" 8 [2, 0, 1] (by decide)

/-- C6: the engine waits for every launched task (one result per input), each
collected result is exactly the dispatch of its own instance's oracle — so no
sibling's send failure, remote failure or timeout can change it — and a result
is `Cancelled` only when that instance's own poll observed a remote
`"Cancelled"` status, never because of a sibling. -/
theorem run_parallel_isolation (env : String → String → SsmEnv)
    (instance_ids : List String) (command : String) (concurrency : Nat)
    (order : List Nat)
    (horder : order.Perm (List.range instance_ids.length)) :
    (run_parallel env instance_ids command concurrency order).length =
      instance_ids.length ∧
    (∀ r ∈ run_parallel env instance_ids command concurrency order,
      r.instanceId ∈ instance_ids ∧
      r = (send_ssm_command (env r.instanceId command) r.instanceId 300).1) ∧
    (∀ r ∈ run_parallel env instance_ids command concurrency order,
      r.status = .Cancelled →
        ∃ j so se, (env r.instanceId command).poll j =
          .invocation "Cancelled" so se) := by
  have hlen : (run_parallel env instance_ids command concurrency order).length =
      instance_ids.length := by
    have h1 : (run_parallel env instance_ids command concurrency order).length =
        order.length := by simp [run_parallel]
    rw [h1, horder.length_eq, List.length_range]
  have hmem : ∀ r ∈ run_parallel env instance_ids command concurrency order,
      r.instanceId ∈ instance_ids ∧
      r = (send_ssm_command (env r.instanceId command) r.instanceId 300).1 := by
    intro r hr
    rw [run_parallel, List.mem_map] at hr
    obtain ⟨k, hk, rfl⟩ := hr
    have hkr : k ∈ List.range instance_ids.length := (horder.mem_iff).mp hk
    have hklt : k < instance_ids.length := List.mem_range.mp hkr
    have hinst := send_ssm_instanceId
      (env (instance_ids.getD k "") command) (instance_ids.getD k "") 300
    constructor
    · rw [hinst, List.getD_eq_getElem instance_ids "" hklt]
      exact List.getElem_mem hklt
    · rw [hinst]
  refine ⟨hlen, hmem, ?_⟩
  intro r hr hc
  obtain ⟨_, heq⟩ := hmem r hr
  rw [heq] at hc
  exact send_ssm_cancelled (env r.instanceId command) r.instanceId 300 hc

/-- Witness for C6: a batch of five instances where one send fails outright
(`i-bad`), dispatched in submission order. -/
theorem run_parallel_isolation_witness :
    (run_parallel
        (fun iid _ => if iid = "i-bad"
          then { sendResult := Except.error "AccessDenied",
                 poll := fun _ => PollResp.pollError }
          else { sendResult := Except.ok "c",
                 poll := fun _ => PollResp.invocation "Success" "" "" })
        ["i-1a", "i-2b", "i-bad", "i-3c", "i-4d"] "git pull" 8
        [0, 1, 2, 3, 4]).length =
      (["i-1a", "i-2b", "i-bad", "i-3c", "i-4d"] : List String).length ∧
    (∀ r ∈ run_parallel
        (fun iid _ => if iid = "i-bad"
          then { sendResult := Except.error "AccessDenied",
                 poll := fun _ => PollResp.pollError }
          else { sendResult := Except.ok "c",
                 poll := fun _ => PollResp.invocation "Success" "" "" })
        ["i-1a", "i-2b", "i-bad", "i-3c", "i-4d"] "git pull" 8
        [0, 1, 2, 3, 4],
      r.instanceId ∈ (["i-1a", "i-2b", "i-bad", "i-3c", "i-4d"] : List String) ∧
      r = (send_ssm_command
          (if r.instanceId = "i-bad"
            then ({ sendResult := Except.error "AccessDenied",
                    poll := fun _ => PollResp.pollError } : SsmEnv)
            else { sendResult := Except.ok "c",
                   poll := fun _ => PollResp.invocation "Success" "" "" })
          r.instanceId 300).1) ∧
    (∀ r ∈ run_parallel
        (fun iid _ => if iid = "i-bad"
          then { sendResult := Except.error "AccessDenied",
                 poll := fun _ => PollResp.pollError }
          else { sendResult := Except.ok "c",
                 poll := fun _ => PollResp.invocation "Success" "" "" })
        ["i-1a", "i-2b", "i-bad", "i-3c", "i-4d"] "git pull" 8
        [0, 1, 2, 3, 4],
      r.status = CmdStatus.Cancelled →
        ∃ j so se,
          (if r.instanceId = "i-bad"
            then ({ sendResult := Except.error "AccessDenied",
                    poll := fun _ => PollResp.pollError } : SsmEnv)
            else { sendResult := Except.ok "c",
                   poll := fun _ => PollResp.invocation "Success" "" "" }).poll j =
            PollResp.invocation "Cancelled" so se) :=
  run_parallel_isolation
    (fun iid _ => if iid = "i-bad"
      then { sendResult := Except.error "AccessDenied",
             poll := fun _ => PollResp.pollError }
      else { sendResult := Except.ok "c",
             poll := fun _ => PollResp.invocation "Success" "" "" })
    ["i-1a", "i-2b", "i-bad", "i-3c", "i-4d"] "git pull" 8 [0, 1, 2, 3, 4]
    (by decide)

/-! ## Claims about the shell embedding (injection safety) -/

theorem swRun_nil (st : SwState) : swRun st [] = st := rfl

theorem swRun_cons (st : SwState) (c : Char) (cs : List Char) :
    swRun st (c :: cs) = swRun (swStep st c) cs := rfl

theorem swRun_append (st : SwState) (xs ys : List Char) :
    swRun st (xs ++ ys) = swRun (swRun st xs) ys :=
  List.foldl_append swStep st xs ys

/-- The scanner only ever appends to the completed-words list, so that list
factors out: running from any `ws` gives the same mode and open word as
running from `[]`, with the produced words appended after `ws`. -/
theorem swRun_ws : ∀ (cs : List Char) (m : QuoteMode) (acc : List Char)
    (ws : List (List Char)),
    swRun ⟨m, acc, ws⟩ cs =
      ⟨(swRun ⟨m, acc, []⟩ cs).mode, (swRun ⟨m, acc, []⟩ cs).acc,
        ws ++ (swRun ⟨m, acc, []⟩ cs).ws⟩ := by
  intro cs
  induction cs with
  | nil => intro m acc ws; simp [swRun]
  | cons c cs' ih =>
    intro m acc ws
    have hstep : ∃ m' acc' δ, swStep ⟨m, acc, ws⟩ c = ⟨m', acc', ws ++ δ⟩ ∧
        swStep ⟨m, acc, []⟩ c = ⟨m', acc', δ⟩ := by
      cases m with
      | unq =>
        by_cases h1 : c = '\x27'
        · exact ⟨.insq, acc, [], by simp [swStep, h1], by simp [swStep, h1]⟩
        · by_cases h2 : c = '\x22'
          · exact ⟨.indq, acc, [], by simp [swStep, h1, h2], by simp [swStep, h1, h2]⟩
          · by_cases h3 : c = ' '
            · by_cases h4 : acc = []
              · exact ⟨.unq, acc, [], by simp [swStep, h1, h2, h3, h4],
                  by simp [swStep, h1, h2, h3, h4]⟩
              · exact ⟨.unq, [], [acc], by simp [swStep, h1, h2, h3, h4],
                  by simp [swStep, h1, h2, h3, h4]⟩
            · exact ⟨.unq, acc ++ [c], [], by simp [swStep, h1, h2, h3],
                by simp [swStep, h1, h2, h3]⟩
      | insq =>
        by_cases h1 : c = '\x27'
        · exact ⟨.unq, acc, [], by simp [swStep, h1], by simp [swStep, h1]⟩
        · exact ⟨.insq, acc ++ [c], [], by simp [swStep, h1], by simp [swStep, h1]⟩
      | indq =>
        by_cases h1 : c = '\x22'
        · exact ⟨.unq, acc, [], by simp [swStep, h1], by simp [swStep, h1]⟩
        · exact ⟨.indq, acc ++ [c], [], by simp [swStep, h1], by simp [swStep, h1]⟩
    obtain ⟨m', acc', δ, h1, h2⟩ := hstep
    rw [swRun_cons, swRun_cons, h1, h2, ih m' acc' (ws ++ δ)]
    conv_rhs => rw [ih m' acc' δ]
    simp [List.append_assoc]

/-- An unquoted blank after a nonempty open word ends that word. -/
theorem swRun_space (acc : List Char) (ws : List (List Char)) (cs : List Char)
    (h : acc ≠ []) :
    swRun ⟨.unq, acc, ws⟩ (' ' :: cs) = swRun ⟨.unq, [], ws ++ [acc]⟩ cs := by
  rw [swRun_cons]
  congr 1
  simp [swStep, h]

/-- Core injection-safety lemma: from inside single quotes, the escaped text
`escChars s` followed by the closing quote is consumed wholly as literal word
content — it appends exactly `s` to the open word, emits no word boundary,
and returns the scanner to the unquoted state, for every `s`, in any context. -/
theorem swRun_insqSeg (s : List Char) : ∀ (acc : List Char) (ws : List (List Char))
    (cs : List Char),
    swRun ⟨.insq, acc, ws⟩ (escChars s ++ '\x27' :: cs) =
      swRun ⟨.unq, acc ++ s, ws⟩ cs := by
  induction s with
  | nil =>
    intro acc ws cs
    simp only [escChars, List.nil_append, List.append_nil]
    rw [swRun_cons]
    have hst : swStep ⟨.insq, acc, ws⟩ '\x27' = ⟨.unq, acc, ws⟩ := rfl
    rw [hst]
  | cons c s' ih =>
    intro acc ws cs
    by_cases hc : c = '\x27'
    · subst hc
      have he : escChars ('\x27' :: s') =
          '\x27' :: '\x22' :: '\x27' :: '\x22' :: '\x27' :: escChars s' := by
        simp [escChars]
      rw [he]
      simp only [List.cons_append]
      rw [swRun_cons, swRun_cons, swRun_cons, swRun_cons, swRun_cons]
      have hst : swStep (swStep (swStep (swStep (swStep ⟨.insq, acc, ws⟩ '\x27')
          '\x22') '\x27') '\x22') '\x27' = ⟨.insq, acc ++ ['\x27'], ws⟩ := by
        simp [swStep]
      rw [hst, ih (acc ++ ['\x27']) ws cs]
      simp [List.append_assoc]
    · have he : escChars (c :: s') = c :: escChars s' := by simp [escChars, hc]
      rw [he]
      simp only [List.cons_append]
      rw [swRun_cons]
      have hst : swStep ⟨.insq, acc, ws⟩ c = ⟨.insq, acc ++ [c], ws⟩ := by
        simp [swStep, hc]
      rw [hst, ih (acc ++ [c]) ws cs]
      simp [List.append_assoc]

/-- The single-quoted embedding `'` + `escChars s` + `'` of a field appends
exactly the literal `s` to the open word and leaves mode and words unchanged. -/
theorem swRun_sqEmbed (s acc : List Char) (ws : List (List Char)) :
    swRun ⟨.unq, acc, ws⟩ (sqEmbed s) = ⟨.unq, acc ++ s, ws⟩ := by
  rw [sqEmbed, swRun_cons]
  have hst : swStep ⟨.unq, acc, ws⟩ '\x27' = ⟨.insq, acc, ws⟩ := by simp [swStep]
  rw [hst]
  have he : escChars s ++ ['\x27'] = escChars s ++ '\x27' :: ([] : List Char) := rfl
  rw [he, swRun_insqSeg s acc ws [], swRun_nil]

set_option maxRecDepth 10000 in
/-- C3: injection safety of the patch generator's escaping.  For every match
pattern and every inserted-line string — embedded quote characters included —
the generated shell command parses into the same fixed sequence of words: the
two fields appear only as the literal tails of the `pattern=…` and
`new_line=…` argument words, the awk program stays one single word, and the
redirection/`mv` tail is unchanged.  No field value can terminate the
surrounding single quotes (see `swRun_insqSeg`: the escaped field is consumed
entirely inside quoted context and returns the scanner to the unquoted state),
so neither field can alter the script's command structure or introduce
commands beyond the intended awk insertion. -/
theorem action_append_cmd_injection_safe (mp nl : List Char) :
    shellWords (action_append_cmd mp nl ("/opt/app/main.py").data) =
      some [("awk").data, ("-v").data, ("pattern=").data ++ mp, ("-v").data,
        ("new_line=").data ++ nl, awkScriptBody.data, ("/opt/app/main.py").data,
        (">").data, ("/tmp/tm_cli_tmp.$$").data, ("&&").data, ("mv").data,
        ("/tmp/tm_cli_tmp.$$").data, ("/opt/app/main.py").data] := by
  have hA1 : swRun ⟨.unq, [], []⟩ (("awk -v pattern=").data) =
      ⟨.unq, ("pattern=").data, [("awk").data, ("-v").data]⟩ := by decide
  have hA2 : swRun ⟨.unq, [], []⟩ (("-v new_line=").data) =
      ⟨.unq, ("new_line=").data, [("-v").data]⟩ := by decide
  have hA3 : swRun ⟨.unq, [], []⟩ (("\x27" ++ awkScriptBody ++ "\x27 ").data) =
      ⟨.unq, [], [awkScriptBody.data]⟩ := by decide
  have hFP : swRun ⟨.unq, [], []⟩ (("/opt/app/main.py").data) =
      ⟨.unq, ("/opt/app/main.py").data, []⟩ := by decide
  have hA4 : swRun ⟨.unq, [], []⟩
      (("> /tmp/tm_cli_tmp.$$ && mv /tmp/tm_cli_tmp.$$ ").data) =
      ⟨.unq, [], [(">").data, ("/tmp/tm_cli_tmp.$$").data, ("&&").data, ("mv").data,
        ("/tmp/tm_cli_tmp.$$").data]⟩ := by decide
  have hs2 : (" -v new_line=" : String).data = ' ' :: ("-v new_line=" : String).data := rfl
  have hs3 : (" \x27" ++ awkScriptBody ++ "\x27 " : String).data =
      ' ' :: ("\x27" ++ awkScriptBody ++ "\x27 " : String).data := by decide
  have hs4 : (" > /tmp/tm_cli_tmp.$$ && mv /tmp/tm_cli_tmp.$$ " : String).data =
      ' ' :: ("> /tmp/tm_cli_tmp.$$ && mv /tmp/tm_cli_tmp.$$ " : String).data := rfl
  have e2 : swRun ⟨.unq, [], []⟩ (("awk -v pattern=").data ++ sqEmbed mp) =
      ⟨.unq, ("pattern=").data ++ mp, [("awk").data, ("-v").data]⟩ := by
    rw [swRun_append, hA1, swRun_sqEmbed]
  have e3 : swRun ⟨.unq, [], []⟩ (("awk -v pattern=").data ++ sqEmbed mp ++
      (' ' :: ("-v new_line=" : String).data)) =
      ⟨.unq, ("new_line=").data,
        [("awk").data, ("-v").data, ("pattern=").data ++ mp, ("-v").data]⟩ := by
    rw [swRun_append, e2,
      swRun_space (("pattern=").data ++ mp) [("awk").data, ("-v").data]
        (("-v new_line=").data) (List.append_ne_nil_of_left_ne_nil (by decide) mp),
      swRun_ws (("-v new_line=").data), hA2]
    simp
  have e4 : swRun ⟨.unq, [], []⟩ (("awk -v pattern=").data ++ sqEmbed mp ++
      (' ' :: ("-v new_line=" : String).data) ++ sqEmbed nl) =
      ⟨.unq, ("new_line=").data ++ nl,
        [("awk").data, ("-v").data, ("pattern=").data ++ mp, ("-v").data]⟩ := by
    rw [swRun_append, e3, swRun_sqEmbed]
  have e5 : swRun ⟨.unq, [], []⟩ (("awk -v pattern=").data ++ sqEmbed mp ++
      (' ' :: ("-v new_line=" : String).data) ++ sqEmbed nl ++
      (' ' :: ("\x27" ++ awkScriptBody ++ "\x27 " : String).data)) =
      ⟨.unq, [],
        [("awk").data, ("-v").data, ("pattern=").data ++ mp, ("-v").data,
         ("new_line=").data ++ nl, awkScriptBody.data]⟩ := by
    rw [swRun_append, e4,
      swRun_space (("new_line=").data ++ nl)
        [("awk").data, ("-v").data, ("pattern=").data ++ mp, ("-v").data]
        (("\x27" ++ awkScriptBody ++ "\x27 " : String).data)
        (List.append_ne_nil_of_left_ne_nil (by decide) nl),
      swRun_ws (("\x27" ++ awkScriptBody ++ "\x27 " : String).data), hA3]
    simp
  have e6 : swRun ⟨.unq, [], []⟩ (("awk -v pattern=").data ++ sqEmbed mp ++
      (' ' :: ("-v new_line=" : String).data) ++ sqEmbed nl ++
      (' ' :: ("\x27" ++ awkScriptBody ++ "\x27 " : String).data) ++
      ("/opt/app/main.py").data) =
      ⟨.unq, ("/opt/app/main.py").data,
        [("awk").data, ("-v").data, ("pattern=").data ++ mp, ("-v").data,
         ("new_line=").data ++ nl, awkScriptBody.data]⟩ := by
    rw [swRun_append, e5, swRun_ws (("/opt/app/main.py").data), hFP]
    simp
  have e7 : swRun ⟨.unq, [], []⟩ (("awk -v pattern=").data ++ sqEmbed mp ++
      (' ' :: ("-v new_line=" : String).data) ++ sqEmbed nl ++
      (' ' :: ("\x27" ++ awkScriptBody ++ "\x27 " : String).data) ++
      ("/opt/app/main.py").data ++
      (' ' :: ("> /tmp/tm_cli_tmp.$$ && mv /tmp/tm_cli_tmp.$$ " : String).data)) =
      ⟨.unq, [],
        [("awk").data, ("-v").data, ("pattern=").data ++ mp, ("-v").data,
         ("new_line=").data ++ nl, awkScriptBody.data, ("/opt/app/main.py").data,
         (">").data, ("/tmp/tm_cli_tmp.$$").data, ("&&").data, ("mv").data,
         ("/tmp/tm_cli_tmp.$$").data]⟩ := by
    rw [swRun_append, e6,
      swRun_space (("/opt/app/main.py").data)
        [("awk").data, ("-v").data, ("pattern=").data ++ mp, ("-v").data,
         ("new_line=").data ++ nl, awkScriptBody.data]
        (("> /tmp/tm_cli_tmp.$$ && mv /tmp/tm_cli_tmp.$$ " : String).data) (by decide),
      swRun_ws (("> /tmp/tm_cli_tmp.$$ && mv /tmp/tm_cli_tmp.$$ " : String).data), hA4]
    simp
  have e8 : swRun ⟨.unq, [], []⟩ (("awk -v pattern=").data ++ sqEmbed mp ++
      (' ' :: ("-v new_line=" : String).data) ++ sqEmbed nl ++
      (' ' :: ("\x27" ++ awkScriptBody ++ "\x27 " : String).data) ++
      ("/opt/app/main.py").data ++
      (' ' :: ("> /tmp/tm_cli_tmp.$$ && mv /tmp/tm_cli_tmp.$$ " : String).data) ++
      ("/opt/app/main.py").data) =
      ⟨.unq, ("/opt/app/main.py").data,
        [("awk").data, ("-v").data, ("pattern=").data ++ mp, ("-v").data,
         ("new_line=").data ++ nl, awkScriptBody.data, ("/opt/app/main.py").data,
         (">").data, ("/tmp/tm_cli_tmp.$$").data, ("&&").data, ("mv").data,
         ("/tmp/tm_cli_tmp.$$").data]⟩ := by
    rw [swRun_append, e7, swRun_ws (("/opt/app/main.py").data), hFP]
    simp
  have hrun : swRun ⟨.unq, [], []⟩
      (action_append_cmd mp nl ("/opt/app/main.py").data) =
      ⟨.unq, ("/opt/app/main.py").data,
        [("awk").data, ("-v").data, ("pattern=").data ++ mp, ("-v").data,
         ("new_line=").data ++ nl, awkScriptBody.data, ("/opt/app/main.py").data,
         (">").data, ("/tmp/tm_cli_tmp.$$").data, ("&&").data, ("mv").data,
         ("/tmp/tm_cli_tmp.$$").data]⟩ := by
    unfold action_append_cmd
    rw [hs2, hs3, hs4]
    exact e8
  simp only [shellWords, hrun]
  rw [if_neg (by decide : ¬ ("/opt/app/main.py" : String).data = [])]
  simp

/-- Sanity check that `action_append_cmd` is character for character the
string concatenation written in the source:
`"awk -v pattern='" + esc_pattern + "' -v new_line='" + esc_newline +
"' '<awk program>' " + qfp + " > /tmp/tm_cli_tmp.$$ && mv /tmp/tm_cli_tmp.$$ "
+ qfp`. -/
theorem action_append_cmd_eq_source (mp nl qfp : List Char) :
    action_append_cmd mp nl qfp =
      ("awk -v pattern=\x27").data ++ escChars mp ++
        ("\x27 -v new_line=\x27").data ++ escChars nl ++
        ("\x27 \x27" ++ awkScriptBody ++ "\x27 ").data ++ qfp ++
        (" > /tmp/tm_cli_tmp.$$ && mv /tmp/tm_cli_tmp.$$ ").data ++ qfp := by
  have h1 : ("awk -v pattern=\x27" : String).data =
      ("awk -v pattern=" : String).data ++ ['\x27'] := rfl
  have h2 : ("\x27 -v new_line=\x27" : String).data =
      ['\x27'] ++ (" -v new_line=" : String).data ++ ['\x27'] := rfl
  have h3 : ("\x27 \x27" ++ awkScriptBody ++ "\x27 " : String).data =
      ['\x27'] ++ (" \x27" ++ awkScriptBody ++ "\x27 " : String).data := by decide
  rw [action_append_cmd, sqEmbed, sqEmbed, h1, h2, h3]
  simp [List.append_assoc]
